import Mathlib

/-!
Shallow embedding of the Chess-Engine repository's position-evaluation,
move-suggestion and blunder-detection core
(src/Engine/move_suggestion.py, src/Engine/evaluation.py,
src/Engine/position_detection.py, src/Engine/board.py).

The chess rules engine (the python-chess library) is an external collaborator:
a position is modelled as a record of exactly the observables the engine code
reads (piece placement, side to move, legal-move list, game-over flags), and
applying a move (`board.push`) is an arbitrary parameter `push` supplied by the
rules engine.  `board.push`/`board.pop` maintain a move stack restoring the
previous position, modelled by `BoardState` (current position plus stack of
saved positions).  Python floats are modelled as exact rationals; the one float
sentinel `float(-inf)` of evaluation.py is modelled by `PyFloat`.  The
`random`-module shuffle block of `suggest_moves` (only executed when
`randomness > 0`) is modelled by an arbitrary list transformation `shuffle`;
Python's stable `list.sort` is modelled by the stable `List.insertionSort`.
All claims quantify over the `push` and `shuffle` parameters, so every theorem
holds for every behaviour of these external collaborators.
-/

/-- Chess piece kinds (`chess.PAWN` … `chess.KING`). -/
inductive PieceType where
  | pawn
  | knight
  | bishop
  | rook
  | queen
  | king
deriving DecidableEq

/-- A piece: type plus colour (`true` = White, as in python-chess `chess.WHITE`). -/
structure Piece where
  pieceType : PieceType
  color : Bool
deriving DecidableEq

/-- A move: from-square / to-square / optional promotion (`chess.Move`).
Squares are numbered 0 = a1 … 63 = h8 as in python-chess. -/
structure Move where
  fromSquare : Fin 64
  toSquare : Fin 64
  promotion : Option PieceType
deriving DecidableEq

/-- The observables of a `chess.Board` position that the engine code reads:
`piece_at`, `turn`, `legal_moves`, `is_checkmate()`, `is_stalemate()`,
`is_insufficient_material()`, `is_game_over()`. -/
structure Position where
  pieceAt : Fin 64 → Option Piece
  turn : Bool
  legalMoves : List Move
  is_checkmate : Bool
  is_stalemate : Bool
  is_insufficient_material : Bool
  is_game_over : Bool
deriving DecidableEq

/-- A `chess.Board` with its move stack: `push` saves the current position,
`pop` restores the most recently saved one. -/
structure BoardState where
  cur : Position
  stack : List Position
deriving DecidableEq

/-- `board.push(move)`: apply a move through the rules engine `push` and save
the prior position on the stack. -/
def pushBoard (push : Position → Move → Position) (b : BoardState) (move : Move) :
    BoardState :=
  ⟨push b.cur move, b.cur :: b.stack⟩

/-- `board.pop()`: restore the most recently saved position. -/
def popBoard (b : BoardState) : BoardState :=
  match b.stack with
  | [] => b
  | p :: rest => ⟨p, rest⟩

/-- `chess.SQUARES`: the 64 squares, in order. -/
def chessSQUARES : List (Fin 64) := List.finRange 64

/-- Accumulating a per-square quantity over all squares
(`for square in chess.SQUARES: score += …`). -/
def boardSum (f : Fin 64 → ℚ) : ℚ := (chessSQUARES.map f).sum

/-- `chess.square_mirror(square)`: mirror a square vertically (a1 ↔ a8). -/
def square_mirror (sq : Fin 64) : Fin 64 :=
  ⟨8 * (7 - sq.val / 8) + sq.val % 8, by have := sq.isLt; omega⟩

/-- Swap a piece's colour (used to state the colour-mirror symmetry claim). -/
def flipPiece (p : Piece) : Piece := ⟨p.pieceType, !p.color⟩

/-- `Q` is the colour-mirrored counterpart of `P`: every piece moved to the
vertically mirrored square with its colour swapped, the side to move flipped,
terminal flags preserved, and (as the rules engine guarantees for mirrored
positions) a legal-move set of the same size. -/
def IsMirror (P Q : Position) : Prop :=
  (∀ sq, Q.pieceAt sq = (P.pieceAt (square_mirror sq)).map flipPiece)
  ∧ Q.turn = !P.turn
  ∧ Q.is_game_over = P.is_game_over
  ∧ Q.is_checkmate = P.is_checkmate
  ∧ Q.legalMoves.length = P.legalMoves.length

/-- The square-mirror involution as a permutation of the 64 squares. -/
def mirrorPerm : Equiv.Perm (Fin 64) :=
  ⟨square_mirror, square_mirror,
    (by decide : Function.LeftInverse square_mirror square_mirror),
    (by decide : Function.RightInverse square_mirror square_mirror)⟩

/-- `MoveSuggester.material_values` (move_suggestion.py). -/
def MoveSuggester.material_values : PieceType → ℚ
  | .pawn => 1
  | .knight => 3
  | .bishop => 3
  | .rook => 5
  | .queen => 9
  | .king => 100

/-- `MoveSuggester.pawn_table`. -/
def MoveSuggester.pawn_table : List ℚ :=
  [0,  0,  0,  0,  0,  0,  0,  0,
   50, 50, 50, 50, 50, 50, 50, 50,
   10, 10, 20, 30, 30, 20, 10, 10,
   5,  5, 10, 25, 25, 10,  5,  5,
   0,  0,  0, 20, 20,  0,  0,  0,
   5, -5,-10,  0,  0,-10, -5,  5,
   5, 10, 10,-20,-20, 10, 10,  5,
   0,  0,  0,  0,  0,  0,  0,  0]

/-- `MoveSuggester.knight_table`. -/
def MoveSuggester.knight_table : List ℚ :=
  [-50,-40,-30,-30,-30,-30,-40,-50,
   -40,-20,  0,  0,  0,  0,-20,-40,
   -30,  0, 10, 15, 15, 10,  0,-30,
   -30,  5, 15, 20, 20, 15,  5,-30,
   -30,  0, 15, 20, 20, 15,  0,-30,
   -30,  5, 10, 15, 15, 10,  5,-30,
   -40,-20,  0,  5,  5,  0,-20,-40,
   -50,-40,-30,-30,-30,-30,-40,-50]

/-- `MoveSuggester.bishop_table`. -/
def MoveSuggester.bishop_table : List ℚ :=
  [-20,-10,-10,-10,-10,-10,-10,-20,
   -10,  0,  0,  0,  0,  0,  0,-10,
   -10,  0,  5, 10, 10,  5,  0,-10,
   -10,  5,  5, 10, 10,  5,  5,-10,
   -10,  0, 10, 10, 10, 10,  0,-10,
   -10, 10, 10, 10, 10, 10, 10,-10,
   -10,  5,  0,  0,  0,  0,  5,-10,
   -20,-10,-10,-10,-10,-10,-10,-20]

/-- `MoveSuggester.rook_table`. -/
def MoveSuggester.rook_table : List ℚ :=
  [0,  0,  0,  0,  0,  0,  0,  0,
   5, 10, 10, 10, 10, 10, 10,  5,
   -5,  0,  0,  0,  0,  0,  0, -5,
   -5,  0,  0,  0,  0,  0,  0, -5,
   -5,  0,  0,  0,  0,  0,  0, -5,
   -5,  0,  0,  0,  0,  0,  0, -5,
   -5,  0,  0,  0,  0,  0,  0, -5,
   0,  0,  0,  5,  5,  0,  0,  0]

/-- `MoveSuggester.queen_table`. -/
def MoveSuggester.queen_table : List ℚ :=
  [-20,-10,-10, -5, -5,-10,-10,-20,
   -10,  0,  0,  0,  0,  0,  0,-10,
   -10,  0,  5,  5,  5,  5,  0,-10,
   -5,  0,  5,  5,  5,  5,  0, -5,
   0,  0,  5,  5,  5,  5,  0, -5,
   -10,  5,  5,  5,  5,  5,  0,-10,
   -10,  0,  5,  0,  0,  0,  0,-10,
   -20,-10,-10, -5, -5,-10,-10,-20]

/-- `MoveSuggester.king_middle_table`. -/
def MoveSuggester.king_middle_table : List ℚ :=
  [-30,-40,-40,-50,-50,-40,-40,-30,
   -30,-40,-40,-50,-50,-40,-40,-30,
   -30,-40,-40,-50,-50,-40,-40,-30,
   -30,-40,-40,-50,-50,-40,-40,-30,
   -20,-30,-30,-40,-40,-30,-30,-20,
   -10,-20,-20,-20,-20,-20,-20,-10,
   20, 20,  0,  0,  0,  0, 20, 20,
   20, 30, 10,  0,  0, 10, 30, 20]

/-- `MoveSuggester.king_end_table`. -/
def MoveSuggester.king_end_table : List ℚ :=
  [-50,-40,-30,-20,-20,-30,-40,-50,
   -30,-20,-10,  0,  0,-10,-20,-30,
   -30,-10, 20, 30, 30, 20,-10,-30,
   -30,-10, 30, 40, 40, 30,-10,-30,
   -30,-10, 30, 40, 40, 30,-10,-30,
   -30,-10, 20, 30, 30, 20,-10,-30,
   -30,-30,  0,  0,  0,  0,-30,-30,
   -50,-30,-30,-30,-30,-30,-30,-50]

/-- The piece-square table the per-square if-chain of
`MoveSuggester.evaluate_position` selects for a piece type (the king uses the
endgame or middlegame table according to `_is_endgame`). -/
def MoveSuggester.piece_square_table (pt : PieceType) (endgame : Bool) : List ℚ :=
  match pt with
  | .pawn => MoveSuggester.pawn_table
  | .knight => MoveSuggester.knight_table
  | .bishop => MoveSuggester.bishop_table
  | .rook => MoveSuggester.rook_table
  | .queen => MoveSuggester.queen_table
  | .king => if endgame then MoveSuggester.king_end_table
             else MoveSuggester.king_middle_table

/-- The material contribution of one square in `MoveSuggester.evaluate_position`:
`score += value` for White pieces, `score -= value` for Black pieces. -/
def MoveSuggester.material_term (pc : Option Piece) : ℚ :=
  match pc with
  | none => 0
  | some p =>
    if p.color then MoveSuggester.material_values p.pieceType
    else -(MoveSuggester.material_values p.pieceType)

/-- The positional contribution of one square in
`MoveSuggester.evaluate_position`: table value `/ 100`, added for White, and
subtracted at the vertically mirrored index (`chess.square_mirror`) for Black. -/
def MoveSuggester.positional_term (endgame : Bool) (pc : Option Piece)
    (square : Fin 64) : ℚ :=
  match pc with
  | none => 0
  | some p =>
    if p.color then
      (MoveSuggester.piece_square_table p.pieceType endgame).getD square.val 0 / 100
    else
      -((MoveSuggester.piece_square_table p.pieceType endgame).getD
          (square_mirror square).val 0 / 100)

/-- The piece count of `MoveSuggester._is_endgame`. -/
def MoveSuggester.piece_count (board : Position) : ℕ :=
  (chessSQUARES.map (fun sq => if (board.pieceAt sq).isSome then 1 else 0)).sum

/-- `MoveSuggester._is_endgame`: 12 or fewer pieces. -/
def MoveSuggester.is_endgame (board : Position) : Bool :=
  MoveSuggester.piece_count board ≤ 12

/-- `MoveSuggester.evaluate_position` with no external engine configured
(`self.engine is None`): terminal short-circuit, then one pass over the squares
adding material and positional terms, then the mobility term
`± len(legal_moves) * 0.01` signed by the side to move. -/
def MoveSuggester.evaluate_position (board : Position) : ℚ :=
  if board.is_game_over then
    if board.is_checkmate then (if board.turn then -10000 else 10000) else 0
  else
    boardSum (fun sq =>
      MoveSuggester.material_term (board.pieceAt sq)
        + MoveSuggester.positional_term (MoveSuggester.is_endgame board)
            (board.pieceAt sq) sq)
    + (if board.turn then (board.legalMoves.length : ℚ) * (1 / 100)
       else -((board.legalMoves.length : ℚ) * (1 / 100)))

/-- Configuration of a `MoveSuggester`: `max_moves` and (clamped) `randomness`. -/
structure SuggesterConfig where
  max_moves : ℕ
  randomness : ℚ
deriving DecidableEq

/-- One iteration of the heuristic loop of `MoveSuggester.suggest_moves`:
push the move, record `(move, -evaluate_position(board), "Heuristic evaluation")`,
pop the move. -/
def MoveSuggester.suggestStep (push : Position → Move → Position)
    (acc : List (Move × ℚ × String) × BoardState) (move : Move) :
    List (Move × ℚ × String) × BoardState :=
  let b1 := pushBoard push acc.2 move
  let eval_score := -(MoveSuggester.evaluate_position b1.cur)
  let b2 := popBoard b1
  (acc.1 ++ [(move, eval_score, "Heuristic evaluation")], b2)

/-- The ordering used by `moves.sort(key=lambda x: x[1], reverse=True)`:
descending by the recorded evaluation. -/
def MoveSuggester.suggestionOrder (x y : Move × ℚ × String) : Prop := y.2.1 ≤ x.2.1

instance : DecidableRel MoveSuggester.suggestionOrder :=
  fun x y => inferInstanceAs (Decidable (y.2.1 ≤ x.2.1))

instance : IsTotal (Move × ℚ × String) MoveSuggester.suggestionOrder :=
  ⟨fun x y => le_total y.2.1 x.2.1⟩

instance : IsTrans (Move × ℚ × String) MoveSuggester.suggestionOrder :=
  ⟨fun _ _ _ h1 h2 => le_trans h2 h1⟩

/-- `MoveSuggester.suggest_moves` with no external engine configured: empty on
game over; otherwise score every legal move by one-ply lookahead, sort stably
in descending score order, run the randomized shuffle block only when
`randomness > 0` and more than one move exists, and truncate to `max_moves`.
The shuffle block (driven by the external `random` module) is the parameter
`shuffle`. -/
def MoveSuggester.suggest_moves (push : Position → Move → Position)
    (shuffle : List (Move × ℚ × String) → List (Move × ℚ × String))
    (config : SuggesterConfig) (b : BoardState) :
    List (Move × ℚ × String) × BoardState :=
  if b.cur.is_game_over then ([], b)
  else
    let loop := b.cur.legalMoves.foldl (MoveSuggester.suggestStep push) ([], b)
    let sorted := List.insertionSort MoveSuggester.suggestionOrder loop.1
    let final := if config.randomness > 0 ∧ sorted.length > 1 then shuffle sorted
                 else sorted
    (final.take config.max_moves, loop.2)

/-- `PIECE_VALUES` of evaluation.py (centipawns). -/
def PositionEvaluator.PIECE_VALUES : PieceType → ℤ
  | .pawn => 100
  | .knight => 320
  | .bishop => 330
  | .rook => 500
  | .queen => 900
  | .king => 20000

/-- The integer centipawn total of `PositionEvaluator.material_evaluation`'s loop. -/
def PositionEvaluator.material_score (board : Position) : ℤ :=
  (chessSQUARES.map (fun sq =>
    match board.pieceAt sq with
    | none => 0
    | some p =>
      if p.color then PositionEvaluator.PIECE_VALUES p.pieceType
      else -(PositionEvaluator.PIECE_VALUES p.pieceType))).sum

/-- `PositionEvaluator.material_evaluation`: `±20000` raw on checkmate,
otherwise the centipawn material total divided by 100. -/
def PositionEvaluator.material_evaluation (board : Position) : ℚ :=
  if board.is_checkmate then (if board.turn then -20000 else 20000)
  else (PositionEvaluator.material_score board : ℚ) / 100

/-- A Python float as used by `get_simple_best_move`: a finite value or one of
the infinities (`float(-inf)` is the initial sentinel). -/
inductive PyFloat where
  | ninf
  | val (q : ℚ)
  | pinf
deriving DecidableEq

/-- Negation of a Python float. -/
def PyFloat.neg : PyFloat → PyFloat
  | .ninf => .pinf
  | .val q => .val (-q)
  | .pinf => .ninf

/-- Strict `>` on Python floats (IEEE semantics on these values). -/
def PyFloat.gtb : PyFloat → PyFloat → Bool
  | .ninf, _ => false
  | .val _, .pinf => false
  | .val q, .val r => decide (r < q)
  | .val _, .ninf => true
  | .pinf, .pinf => false
  | .pinf, _ => true

/-- `PositionEvaluator.get_simple_best_move`: scan the legal moves keeping the
one maximizing `-material_evaluation(resulting position)` against a
`float(-inf)` sentinel, and return the best move with the negated best score. -/
def PositionEvaluator.get_simple_best_move (push : Position → Move → Position)
    (board : Position) : Option Move × PyFloat :=
  let r := board.legalMoves.foldl (fun acc move =>
    let score := PyFloat.val (-(PositionEvaluator.material_evaluation (push board move)))
    if PyFloat.gtb score acc.2 then (some move, score) else acc)
    ((none : Option Move), PyFloat.ninf)
  (r.1, r.2.neg)

/-- `PositionEvaluator.get_best_move` with no engine configured
(`self.engine is None`): delegates to `get_simple_best_move`. -/
def PositionEvaluator.get_best_move (push : Position → Move → Position)
    (board : Position) : Option Move × PyFloat :=
  PositionEvaluator.get_simple_best_move push board

/-- `BlunderDetector.material_values` (position_detection.py). -/
def BlunderDetector.material_values : PieceType → ℚ
  | .pawn => 1
  | .knight => 3
  | .bishop => 3
  | .rook => 5
  | .queen => 9
  | .king => 100

/-- The centre squares `[chess.E4, chess.E5, chess.D4, chess.D5]`. -/
def BlunderDetector.center_squares : List ℕ := [28, 36, 27, 35]

/-- The king-in-the-middle squares
`[chess.E1, chess.E2, chess.D1, chess.D2, chess.E8, chess.E7, chess.D8, chess.D7]`. -/
def BlunderDetector.king_middle_squares : List ℕ := [4, 12, 3, 11, 60, 52, 59, 51]

/-- The material contribution of one square in
`BlunderDetector.evaluate_position`'s first loop. -/
def BlunderDetector.material_term (pc : Option Piece) : ℚ :=
  match pc with
  | none => 0
  | some p =>
    if p.color then BlunderDetector.material_values p.pieceType
    else -(BlunderDetector.material_values p.pieceType)

/-- The positional bonus/penalty of one square in
`BlunderDetector.evaluate_position`'s second loop: centre-control bonus, castled
White-king bonus (squares G1/C1), and king-in-the-middle penalty — embedded
exactly as written, including the unreachable inner colour test of the castling
branch. -/
def BlunderDetector.position_bonus (pc : Option Piece) (square : Fin 64) : ℚ :=
  match pc with
  | none => 0
  | some p =>
    (if square.val ∈ BlunderDetector.center_squares then
       (if p.color then (1 / 10 : ℚ) else -(1 / 10)) else 0)
    + (if p.pieceType = PieceType.king then
         (if p.color = true ∧ (square.val = 6 ∨ square.val = 2) then
            (if p.color then (1 / 2 : ℚ) else -(1 / 2))
          else if square.val ∈ BlunderDetector.king_middle_squares then
            (if p.color then -(3 / 10 : ℚ) else (3 / 10))
          else 0)
       else 0)

/-- `BlunderDetector.evaluate_position` with no engine configured: material
loop plus positional-bonus loop. -/
def BlunderDetector.evaluate_position (board : Position) : ℚ :=
  (chessSQUARES.map (fun sq => BlunderDetector.material_term (board.pieceAt sq))).sum
  + (chessSQUARES.map (fun sq =>
      BlunderDetector.position_bonus (board.pieceAt sq) sq)).sum

/-- `BlunderDetector.is_blunder`: evaluate, push, evaluate, pop; then compare
the evaluation swing with `abs(evaluation_threshold)` according to the restored
board's side to move (the mover). Returns `(is_blunder, eval_before,
eval_after)` together with the final board state. -/
def BlunderDetector.is_blunder (push : Position → Move → Position)
    (b : BoardState) (move : Move) (evaluation_threshold : ℚ) :
    (Bool × ℚ × ℚ) × BoardState :=
  let eval_before := BlunderDetector.evaluate_position b.cur
  let b1 := pushBoard push b move
  let eval_after := BlunderDetector.evaluate_position b1.cur
  let b2 := popBoard b1
  let isB : Bool :=
    if b2.cur.turn then decide (eval_before - eval_after > |evaluation_threshold|)
    else decide (eval_after - eval_before > |evaluation_threshold|)
  ((isB, eval_before, eval_after), b2)

/-- One iteration of `BlunderDetector.find_better_moves`' loop: skip the
candidate move, otherwise push/evaluate/pop and keep the move when it is
strictly better for the side to move. -/
def BlunderDetector.fbmStep (push : Position → Move → Position) (move : Move)
    (eval_after_move : ℚ) (acc : List (Move × ℚ) × BoardState)
    (legal_move : Move) : List (Move × ℚ) × BoardState :=
  if legal_move = move then acc
  else
    let b1 := pushBoard push acc.2 legal_move
    let eval_after := BlunderDetector.evaluate_position b1.cur
    let b2 := popBoard b1
    if b2.cur.turn then
      (if eval_after > eval_after_move then (acc.1 ++ [(legal_move, eval_after)], b2)
       else (acc.1, b2))
    else
      (if eval_after < eval_after_move then (acc.1 ++ [(legal_move, eval_after)], b2)
       else (acc.1, b2))

/-- `better_moves.sort(key=lambda x: x[1], reverse=True)` (White to move). -/
def BlunderDetector.betterDesc (x y : Move × ℚ) : Prop := y.2 ≤ x.2

/-- `better_moves.sort(key=lambda x: x[1])` (Black to move). -/
def BlunderDetector.betterAsc (x y : Move × ℚ) : Prop := x.2 ≤ y.2

instance : DecidableRel BlunderDetector.betterDesc :=
  fun x y => inferInstanceAs (Decidable (y.2 ≤ x.2))

instance : IsTotal (Move × ℚ) BlunderDetector.betterDesc :=
  ⟨fun x y => le_total y.2 x.2⟩

instance : IsTrans (Move × ℚ) BlunderDetector.betterDesc :=
  ⟨fun _ _ _ h1 h2 => le_trans h2 h1⟩

instance : DecidableRel BlunderDetector.betterAsc :=
  fun x y => inferInstanceAs (Decidable (x.2 ≤ y.2))

instance : IsTotal (Move × ℚ) BlunderDetector.betterAsc :=
  ⟨fun x y => le_total x.2 y.2⟩

instance : IsTrans (Move × ℚ) BlunderDetector.betterAsc :=
  ⟨fun _ _ _ h1 h2 => le_trans h1 h2⟩

/-- `BlunderDetector.find_better_moves`: get `eval_after` of the candidate via
`is_blunder`, collect every other legal move whose resulting evaluation is
strictly better for the side to move, sort (descending for White, ascending
for Black), and return the first `max_moves`. -/
def BlunderDetector.find_better_moves (push : Position → Move → Position)
    (evaluation_threshold : ℚ) (b : BoardState) (move : Move) (max_moves : ℕ) :
    List (Move × ℚ) × BoardState :=
  let r := BlunderDetector.is_blunder push b move evaluation_threshold
  let eval_after_move := r.1.2.2
  let b1 := r.2
  let loop := b1.cur.legalMoves.foldl
    (BlunderDetector.fbmStep push move eval_after_move) ([], b1)
  let sorted :=
    if loop.2.cur.turn then List.insertionSort BlunderDetector.betterDesc loop.1
    else List.insertionSort BlunderDetector.betterAsc loop.1
  (sorted.take max_moves, loop.2)

/-- The `Board` wrapper of board.py: a `chess.Board` plus `move_history`. -/
structure Board where
  b : BoardState
  move_history : List Move
deriving DecidableEq

/-- `Board.make_move`: push the move and append it to the history when it is
legal, returning `True`; otherwise return `False` unchanged. -/
def Board.make_move (push : Position → Move → Position) (self : Board)
    (move : Move) : Bool × Board :=
  if move ∈ self.b.cur.legalMoves then
    (true, ⟨pushBoard push self.b move, self.move_history ++ [move]⟩)
  else (false, self)

/-- Build a `pieceAt` function from a square/piece association list. -/
def boardOf (l : List (ℕ × Piece)) : Fin 64 → Option Piece :=
  fun sq => (l.find? (fun e => e.1 == sq.val)).map (fun e => e.2)

/-- The standard starting placement. -/
def startBoard : Fin 64 → Option Piece := boardOf
  [(0, ⟨.rook, true⟩), (1, ⟨.knight, true⟩), (2, ⟨.bishop, true⟩),
   (3, ⟨.queen, true⟩), (4, ⟨.king, true⟩), (5, ⟨.bishop, true⟩),
   (6, ⟨.knight, true⟩), (7, ⟨.rook, true⟩),
   (8, ⟨.pawn, true⟩), (9, ⟨.pawn, true⟩), (10, ⟨.pawn, true⟩),
   (11, ⟨.pawn, true⟩), (12, ⟨.pawn, true⟩), (13, ⟨.pawn, true⟩),
   (14, ⟨.pawn, true⟩), (15, ⟨.pawn, true⟩),
   (48, ⟨.pawn, false⟩), (49, ⟨.pawn, false⟩), (50, ⟨.pawn, false⟩),
   (51, ⟨.pawn, false⟩), (52, ⟨.pawn, false⟩), (53, ⟨.pawn, false⟩),
   (54, ⟨.pawn, false⟩), (55, ⟨.pawn, false⟩),
   (56, ⟨.rook, false⟩), (57, ⟨.knight, false⟩), (58, ⟨.bishop, false⟩),
   (59, ⟨.queen, false⟩), (60, ⟨.king, false⟩), (61, ⟨.bishop, false⟩),
   (62, ⟨.knight, false⟩), (63, ⟨.rook, false⟩)]

/-- The 20 legal first moves of the starting position. -/
def startMoves : List Move :=
  [⟨8, 16, none⟩, ⟨9, 17, none⟩, ⟨10, 18, none⟩, ⟨11, 19, none⟩,
   ⟨12, 20, none⟩, ⟨13, 21, none⟩, ⟨14, 22, none⟩, ⟨15, 23, none⟩,
   ⟨8, 24, none⟩, ⟨9, 25, none⟩, ⟨10, 26, none⟩, ⟨11, 27, none⟩,
   ⟨12, 28, none⟩, ⟨13, 29, none⟩, ⟨14, 30, none⟩, ⟨15, 31, none⟩,
   ⟨1, 16, none⟩, ⟨1, 18, none⟩, ⟨6, 21, none⟩, ⟨6, 23, none⟩]

/-- The standard starting position, White to move. -/
def startPos : Position :=
  ⟨startBoard, true, startMoves, false, false, false, false⟩

/-- Mirror a move vertically (used to build the mirrored starting position). -/
def mirrorMove (m : Move) : Move :=
  ⟨square_mirror m.fromSquare, square_mirror m.toSquare, m.promotion⟩

/-- The colour-mirror of the starting position: same (symmetric) placement,
Black to move, the 20 mirrored replies. -/
def startPosBlack : Position :=
  ⟨startBoard, false, startMoves.map mirrorMove, false, false, false, false⟩

/-- The fool's mate final position
(`rnb1kbnr/pppp1ppp/8/4p3/6Pq/5P2/PPPPP2P/RNBQKBNR w`): White to move and
checkmated. -/
def foolsMateBoard : Fin 64 → Option Piece := boardOf
  [(0, ⟨.rook, true⟩), (1, ⟨.knight, true⟩), (2, ⟨.bishop, true⟩),
   (3, ⟨.queen, true⟩), (4, ⟨.king, true⟩), (5, ⟨.bishop, true⟩),
   (6, ⟨.knight, true⟩), (7, ⟨.rook, true⟩),
   (8, ⟨.pawn, true⟩), (9, ⟨.pawn, true⟩), (10, ⟨.pawn, true⟩),
   (11, ⟨.pawn, true⟩), (12, ⟨.pawn, true⟩), (15, ⟨.pawn, true⟩),
   (21, ⟨.pawn, true⟩), (30, ⟨.pawn, true⟩),
   (31, ⟨.queen, false⟩), (36, ⟨.pawn, false⟩),
   (48, ⟨.pawn, false⟩), (49, ⟨.pawn, false⟩), (50, ⟨.pawn, false⟩),
   (51, ⟨.pawn, false⟩), (53, ⟨.pawn, false⟩), (54, ⟨.pawn, false⟩),
   (55, ⟨.pawn, false⟩),
   (56, ⟨.rook, false⟩), (57, ⟨.knight, false⟩), (58, ⟨.bishop, false⟩),
   (60, ⟨.king, false⟩), (61, ⟨.bishop, false⟩), (62, ⟨.knight, false⟩),
   (63, ⟨.rook, false⟩)]

/-- Fool's mate as a `Position`: game over, checkmate, White to move. -/
def foolsMatePos : Position :=
  ⟨foolsMateBoard, true, [], true, false, false, true⟩

/-- A stalemate with material still on the board: White Kf6 + Qg6 against
Black Kh8, Black to move with no legal move. -/
def stalemateBoard : Fin 64 → Option Piece := boardOf
  [(45, ⟨.king, true⟩), (46, ⟨.queen, true⟩), (63, ⟨.king, false⟩)]

/-- The stalemate position: game over, not checkmate, Black to move. -/
def stalematePos : Position :=
  ⟨stalemateBoard, false, [], false, true, false, true⟩

/-- A bare-kings placement (kings on e1 and e8) used by the concrete scenarios. -/
def kingsBoard : Fin 64 → Option Piece :=
  boardOf [(4, ⟨.king, true⟩), (60, ⟨.king, false⟩)]

/-- First candidate move of the concrete scenarios. -/
def mvA : Move := ⟨8, 16, none⟩

/-- Second candidate move of the concrete scenarios. -/
def mvB : Move := ⟨9, 17, none⟩

/-- Result of `mvA` in the suggestion scenario: bare kings, Black to move,
one legal reply (heuristic evaluation `-0.01`). -/
def resA : Position :=
  ⟨kingsBoard, false, [⟨12, 20, none⟩], false, false, false, false⟩

/-- Result of `mvB` in the suggestion scenario: bare kings, Black to move,
five legal replies (heuristic evaluation `-0.05`). -/
def resB : Position :=
  ⟨kingsBoard, false,
   [⟨12, 20, none⟩, ⟨13, 21, none⟩, ⟨14, 22, none⟩, ⟨15, 23, none⟩, ⟨16, 24, none⟩],
   false, false, false, false⟩

/-- The scenario position: White to move with the two candidates `mvA`, `mvB`. -/
def scnPos : Position :=
  ⟨kingsBoard, true, [mvA, mvB], false, false, false, false⟩

/-- The rules-engine move application of the suggestion scenario. -/
def scnPush : Position → Move → Position :=
  fun _ m => if m = mvA then resA else resB

/-- The scenario board state (empty move stack). -/
def scnBoard : BoardState := ⟨scnPos, []⟩

/-- Default suggester configuration: `max_moves = 5`, `randomness = 0`. -/
def cfg0 : SuggesterConfig := ⟨5, 0⟩

/-- Result of `mvB` in the blunder scenario: bare kings plus a White queen on
d4 (material evaluation `9.1` with the centre bonus). -/
def resD : Position :=
  ⟨boardOf [(4, ⟨.king, true⟩), (60, ⟨.king, false⟩), (27, ⟨.queen, true⟩)],
   false, [], false, false, false, false⟩

/-- The rules-engine move application of the blunder scenario: `mvA` keeps the
bare kings, `mvB` reaches the extra-queen position. -/
def fbmPush : Position → Move → Position :=
  fun _ m => if m = mvA then resA else resD

set_option maxRecDepth 6000

theorem square_mirror_mirror : ∀ sq : Fin 64, square_mirror (square_mirror sq) = sq := by
  decide

theorem boardSum_eq_sum (f : Fin 64 → ℚ) : boardSum f = ∑ sq : Fin 64, f sq :=
  (Fin.sum_univ_def f).symm

theorem piece_count_eq (P : Position) :
    MoveSuggester.piece_count P
      = ∑ sq : Fin 64, (if (P.pieceAt sq).isSome then (1 : ℕ) else 0) :=
  (Fin.sum_univ_def _).symm

theorem mirrorPerm_apply (sq : Fin 64) : mirrorPerm sq = square_mirror sq := rfl

theorem material_term_flip (pc : Option Piece) :
    MoveSuggester.material_term (pc.map flipPiece)
      = -(MoveSuggester.material_term pc) := by
  cases pc with
  | none => simp [MoveSuggester.material_term]
  | some p =>
    cases hc : p.color <;>
      simp [MoveSuggester.material_term, flipPiece, hc]

theorem positional_term_flip (endgame : Bool) (pc : Option Piece) (sq : Fin 64) :
    MoveSuggester.positional_term endgame (pc.map flipPiece) (square_mirror sq)
      = -(MoveSuggester.positional_term endgame pc sq) := by
  cases pc with
  | none => simp [MoveSuggester.positional_term]
  | some p =>
    cases hc : p.color <;>
      simp [MoveSuggester.positional_term, flipPiece, hc, square_mirror_mirror]

theorem sorted_head_rel {α : Type} (r : α → α → Prop) (hrefl : ∀ a, r a a)
    {l : List α} (hs : List.Sorted r l) {x : α} (hx : l.head? = some x) :
    ∀ y ∈ l, r x y := by
  cases l with
  | nil => simp at hx
  | cons a t =>
    simp only [List.head?_cons, Option.some.injEq] at hx
    subst hx
    intro y hy
    rcases List.mem_cons.mp hy with h | h
    · subst h; exact hrefl _
    · exact (List.sorted_cons.mp hs).1 y h

theorem head?_take {α : Type} {n : ℕ} {l : List α} {x : α}
    (h : (l.take n).head? = some x) : l.head? = some x := by
  cases l with
  | nil => simp at h
  | cons a t =>
    cases n with
    | zero => simp at h
    | succ m => simpa using h

theorem suggestLoop_eq (push : Position → Move → Position) :
    ∀ (l : List Move) (acc : List (Move × ℚ × String)) (b : BoardState),
      l.foldl (MoveSuggester.suggestStep push) (acc, b)
        = (acc ++ l.map (fun m =>
            (m, -(MoveSuggester.evaluate_position (push b.cur m)),
              "Heuristic evaluation")), b) := by
  intro l
  induction l with
  | nil => intro acc b; simp
  | cons m t ih =>
    intro acc b
    rw [List.foldl_cons]
    have hstep : MoveSuggester.suggestStep push (acc, b) m
        = (acc ++ [(m, -(MoveSuggester.evaluate_position (push b.cur m)),
            "Heuristic evaluation")], b) := rfl
    rw [hstep, ih]
    simp

/-- Claim C1 (amended): for every game-over position the MoveSuggester
heuristic evaluator returns exactly -10000 on checkmate with White to move,
+10000 on checkmate with Black to move, and 0 on every other game-over
condition; `PositionEvaluator.material_evaluation`, however, returns
-20000/+20000 on checkmate (not ±10000) and on non-checkmate game-over
positions does not short-circuit to 0 but returns the material balance,
which is 9 on the concrete stalemate position `stalematePos`. -/
theorem claim_C1 :
    (∀ P : Position, P.is_game_over = true →
      MoveSuggester.evaluate_position P
        = if P.is_checkmate then (if P.turn then -10000 else 10000) else 0)
    ∧ (∀ P : Position, P.is_checkmate = true →
      PositionEvaluator.material_evaluation P
        = if P.turn then -20000 else 20000)
    ∧ PositionEvaluator.material_evaluation stalematePos = 9 := by
  refine ⟨?_, ?_, ?_⟩
  · intro P h
    simp [MoveSuggester.evaluate_position, h]
  · intro P h
    simp [PositionEvaluator.material_evaluation, h]
  · with_unfolding_all decide

/-- Claim C1 counterexample: in the fool's mate position (game over, checkmate,
White to move) `PositionEvaluator.material_evaluation` returns -20000, not the
-10000.0 the claim asserts for every heuristic evaluation entry point. -/
theorem claim_C1_counterexample :
    foolsMatePos.is_game_over = true ∧ foolsMatePos.is_checkmate = true
    ∧ foolsMatePos.turn = true
    ∧ PositionEvaluator.material_evaluation foolsMatePos ≠ -10000
    ∧ PositionEvaluator.material_evaluation foolsMatePos = -20000 := by
  refine ⟨rfl, rfl, rfl, ?_, ?_⟩ <;>
    norm_num [PositionEvaluator.material_evaluation, foolsMatePos]

/-- Claim C1 witness: the amended theorem applied at the fool's mate position. -/
theorem claim_C1_witness :
    MoveSuggester.evaluate_position foolsMatePos
      = (if foolsMatePos.is_checkmate then
          (if foolsMatePos.turn then -10000 else 10000) else 0)
    ∧ PositionEvaluator.material_evaluation foolsMatePos
      = (if foolsMatePos.turn then -20000 else 20000) :=
  ⟨claim_C1.1 foolsMatePos rfl, claim_C1.2.1 foolsMatePos rfl⟩

/-- Claim C3: `is_blunder` flags a move exactly when the evaluation swing
against the mover (the side to move before the push) strictly exceeds the
absolute value of the configured threshold — `eval_before - eval_after` for a
White mover, `eval_after - eval_before` for a Black mover — and a swing exactly
equal to the absolute threshold is not flagged (strictly exclusive boundary). -/
theorem claim_C3 (push : Position → Move → Position) (b : BoardState)
    (move : Move) (threshold : ℚ) :
    ((BlunderDetector.is_blunder push b move threshold).1.1 = true ↔
      (if b.cur.turn then
        BlunderDetector.evaluate_position b.cur
          - BlunderDetector.evaluate_position (push b.cur move) > |threshold|
      else
        BlunderDetector.evaluate_position (push b.cur move)
          - BlunderDetector.evaluate_position b.cur > |threshold|))
    ∧ ((if b.cur.turn then
          BlunderDetector.evaluate_position b.cur
            - BlunderDetector.evaluate_position (push b.cur move)
        else
          BlunderDetector.evaluate_position (push b.cur move)
            - BlunderDetector.evaluate_position b.cur) = |threshold| →
      (BlunderDetector.is_blunder push b move threshold).1.1 = false) := by
  constructor
  · cases hb : b.cur.turn <;>
      simp [BlunderDetector.is_blunder, pushBoard, popBoard, hb]
  · intro h
    cases hb : b.cur.turn
    · rw [hb] at h
      simp only [Bool.false_eq_true, if_false] at h
      simp [BlunderDetector.is_blunder, pushBoard, popBoard, hb]
      all_goals linarith [h]
    · rw [hb] at h
      simp only [if_true] at h
      simp [BlunderDetector.is_blunder, pushBoard, popBoard, hb]
      all_goals linarith [h]

/-- Claim C3 witness: the boundary case of `claim_C3` at a concrete scenario
with zero swing and zero threshold. -/
theorem claim_C3_witness :
    (BlunderDetector.is_blunder fbmPush scnBoard mvA 0).1.1 = false :=
  (claim_C3 fbmPush scnBoard mvA 0).2 (by with_unfolding_all decide)

/-- Claim C4: `is_blunder` and the heuristic `suggest_moves` restore the
caller's board exactly — the final board state equals the initial one, so every
observable of the position (FEN, side to move, legal-move set) is unchanged. -/
theorem claim_C4 :
    (∀ (push : Position → Move → Position) (b : BoardState) (move : Move) (t : ℚ),
      (BlunderDetector.is_blunder push b move t).2 = b)
    ∧ (∀ (push : Position → Move → Position)
        (shuffle : List (Move × ℚ × String) → List (Move × ℚ × String))
        (config : SuggesterConfig) (b : BoardState),
      (MoveSuggester.suggest_moves push shuffle config b).2 = b) := by
  constructor
  · intro push b move t
    rfl
  · intro push shuffle config b
    by_cases h : b.cur.is_game_over
    · simp [MoveSuggester.suggest_moves, h]
    · simp only [MoveSuggester.suggest_moves, h, Bool.false_eq_true, if_false]
      rw [suggestLoop_eq push b.cur.legalMoves [] b]

/-- Claim C6: on a game-over position `suggest_moves` returns the empty list
(not an error), for every randomness and max_moves configuration and every
shuffle/push behaviour. -/
theorem claim_C6 (push : Position → Move → Position)
    (shuffle : List (Move × ℚ × String) → List (Move × ℚ × String))
    (config : SuggesterConfig) (b : BoardState)
    (h : b.cur.is_game_over = true) :
    (MoveSuggester.suggest_moves push shuffle config b).1 = [] := by
  simp [MoveSuggester.suggest_moves, h]

/-- Claim C6 witness: `claim_C6` at the fool's mate position with nonzero
randomness and `max_moves = 0`. -/
theorem claim_C6_witness :
    (MoveSuggester.suggest_moves scnPush id ⟨0, 1⟩ ⟨foolsMatePos, []⟩).1 = [] :=
  claim_C6 scnPush id ⟨0, 1⟩ ⟨foolsMatePos, []⟩ rfl

/-- Claim C8 counterexample: the heuristic evaluation of the standard starting
position is exactly 0.2 (the mobility term contributes 20 × 0.01 for the side
to move), whose absolute value exceeds the claimed 0.1 bound. -/
theorem claim_C8_counterexample :
    MoveSuggester.evaluate_position startPos = 1/5
    ∧ ¬(|MoveSuggester.evaluate_position startPos| ≤ 1/10) := by
  constructor <;> with_unfolding_all decide

/-- Claim C8 (amended): the heuristic evaluation of the standard starting
position has absolute value at most 0.2 pawns — material and piece-square-table
contributions cancel exactly between the two sides, and the mobility term
contributes +0.2 (White's 20 legal moves times 0.01), not approximately 0. -/
theorem claim_C8 : |MoveSuggester.evaluate_position startPos| ≤ 1/5 := by
  with_unfolding_all decide

/-- Claim C9: `Board.make_move` returns `True`, pushes the move and appends it
to `move_history` exactly when the move is legal in the current position;
otherwise it returns `False` and leaves the board and the history unchanged. -/
theorem claim_C9 (push : Position → Move → Position) (eb : Board) (move : Move) :
    ((Board.make_move push eb move).1 = true ↔ move ∈ eb.b.cur.legalMoves)
    ∧ (move ∈ eb.b.cur.legalMoves →
        (Board.make_move push eb move).2
          = ⟨pushBoard push eb.b move, eb.move_history ++ [move]⟩)
    ∧ (move ∉ eb.b.cur.legalMoves → (Board.make_move push eb move).2 = eb) := by
  by_cases h : move ∈ eb.b.cur.legalMoves <;>
    simp [Board.make_move, h]

/-- Claim C9 witness: `claim_C9` at the starting position, with a legal move
(a2a3) and an illegal move. -/
theorem claim_C9_witness :
    (Board.make_move scnPush ⟨⟨startPos, []⟩, []⟩ ⟨8, 16, none⟩).1 = true
    ∧ (Board.make_move scnPush ⟨⟨startPos, []⟩, []⟩ ⟨0, 1, none⟩).2
        = ⟨⟨startPos, []⟩, []⟩ := by
  constructor
  · exact (claim_C9 scnPush ⟨⟨startPos, []⟩, []⟩ ⟨8, 16, none⟩).1.mpr
      (by with_unfolding_all decide)
  · exact (claim_C9 scnPush ⟨⟨startPos, []⟩, []⟩ ⟨0, 1, none⟩).2.2
      (by with_unfolding_all decide)

/-- Claim C10: on a position with no legal moves, `get_simple_best_move` (and
`get_best_move` with no engine configured) returns move `None` with score
`+inf` — the negation of the `float(-inf)` initial sentinel — which is not a
finite number. -/
theorem claim_C10 (push : Position → Move → Position) (board : Position)
    (h : board.legalMoves = []) :
    PositionEvaluator.get_simple_best_move push board = (none, PyFloat.pinf)
    ∧ PositionEvaluator.get_best_move push board = (none, PyFloat.pinf)
    ∧ ∀ q : ℚ, (PositionEvaluator.get_simple_best_move push board).2
        ≠ PyFloat.val q := by
  refine ⟨?_, ?_, ?_⟩ <;>
    simp [PositionEvaluator.get_best_move, PositionEvaluator.get_simple_best_move,
      h, PyFloat.neg]

/-- Claim C10 witness: `claim_C10` at the fool's mate position (no legal
moves). -/
theorem claim_C10_witness :
    PositionEvaluator.get_simple_best_move scnPush foolsMatePos
      = (none, PyFloat.pinf)
    ∧ PositionEvaluator.get_best_move scnPush foolsMatePos
      = (none, PyFloat.pinf) :=
  ⟨(claim_C10 scnPush foolsMatePos rfl).1, (claim_C10 scnPush foolsMatePos rfl).2.1⟩

theorem mem_of_head? {α : Type} {l : List α} {x : α} (h : l.head? = some x) :
    x ∈ l := by
  cases l with
  | nil => simp at h
  | cons a t =>
    simp only [List.head?_cons, Option.some.injEq] at h
    exact h ▸ List.mem_cons_self a t

/-- Claim C2 (amended): with `randomness = 0` and no engine, `suggest_moves`
is deterministic — its result does not depend on the random shuffle — and the
resulting position of its first (top) suggestion has a white-relative
evaluation that is less than or equal to that of every other legal move's
resulting position: the recorded score is the negated white-relative
evaluation of the resulting position and the list is sorted descending by it.
For a Black mover this is best-first from the mover's perspective, as the
claim states; for a White mover it is the opposite (worst-first). -/
theorem claim_C2 (push : Position → Move → Position)
    (shuffle1 shuffle2 : List (Move × ℚ × String) → List (Move × ℚ × String))
    (config : SuggesterConfig) (b : BoardState)
    (h : config.randomness = 0) :
    MoveSuggester.suggest_moves push shuffle1 config b
      = MoveSuggester.suggest_moves push shuffle2 config b
    ∧ ∀ s, (MoveSuggester.suggest_moves push shuffle1 config b).1.head? = some s →
        ∀ m ∈ b.cur.legalMoves,
          MoveSuggester.evaluate_position (push b.cur s.1)
            ≤ MoveSuggester.evaluate_position (push b.cur m) := by
  by_cases hgo : b.cur.is_game_over
  · constructor
    · simp [MoveSuggester.suggest_moves, hgo]
    · intro s hs
      simp [MoveSuggester.suggest_moves, hgo] at hs
  · constructor
    · simp [MoveSuggester.suggest_moves, hgo, h]
    · intro s hs m hm
      have hlist : (MoveSuggester.suggest_moves push shuffle1 config b).1
          = (List.insertionSort MoveSuggester.suggestionOrder
              (b.cur.legalMoves.map (fun mv =>
                (mv, -(MoveSuggester.evaluate_position (push b.cur mv)),
                  "Heuristic evaluation")))).take config.max_moves := by
        simp [MoveSuggester.suggest_moves, hgo, h,
          suggestLoop_eq push b.cur.legalMoves [] b]
      rw [hlist] at hs
      have hs2 := head?_take hs
      have hsorted := List.sorted_insertionSort MoveSuggester.suggestionOrder
        (b.cur.legalMoves.map (fun mv =>
          (mv, -(MoveSuggester.evaluate_position (push b.cur mv)),
            "Heuristic evaluation")))
      have hall := sorted_head_rel MoveSuggester.suggestionOrder
        (fun a => le_refl a.2.1) hsorted hs2
      have hsmem2 : s ∈ b.cur.legalMoves.map (fun mv =>
          (mv, -(MoveSuggester.evaluate_position (push b.cur mv)),
            "Heuristic evaluation")) :=
        (List.perm_insertionSort MoveSuggester.suggestionOrder _).mem_iff.mp
          (mem_of_head? hs2)
      obtain ⟨m0, hm0mem, hm0eq⟩ := List.mem_map.mp hsmem2
      have hskey : s.2.1 = -(MoveSuggester.evaluate_position (push b.cur s.1)) := by
        rw [← hm0eq]
      have hrel := hall _ ((List.perm_insertionSort
          MoveSuggester.suggestionOrder _).mem_iff.mpr
        (List.mem_map_of_mem _ hm))
      have hneg : -(MoveSuggester.evaluate_position (push b.cur m))
          ≤ -(MoveSuggester.evaluate_position (push b.cur s.1)) := by
        rw [← hskey]
        exact hrel
      linarith

/-- Claim C2 counterexample: in the concrete scenario `scnBoard` (White to
move, legal moves `mvA` and `mvB`) with `randomness = 0`, the top suggestion is
`mvB`, whose resulting position evaluates strictly lower for the mover (White)
than `mvA`'s resulting position — the heuristic ranking is worst-first for a
White mover, contradicting the claimed mover-perspective ranking. -/
theorem claim_C2_counterexample :
    scnPos.turn = true ∧ mvA ∈ scnPos.legalMoves
    ∧ (MoveSuggester.suggest_moves scnPush id cfg0 scnBoard).1.head?
        = some (mvB, 1/20, "Heuristic evaluation")
    ∧ MoveSuggester.evaluate_position (scnPush scnPos mvB)
        < MoveSuggester.evaluate_position (scnPush scnPos mvA) := by
  refine ⟨rfl, ?_, ?_, ?_⟩
  · with_unfolding_all decide
  · with_unfolding_all decide
  · with_unfolding_all decide

/-- Claim C2 witness: the amended theorem applied at the concrete scenario
(randomness 0), with two different shuffle functions. -/
theorem claim_C2_witness :
    MoveSuggester.suggest_moves scnPush id cfg0 scnBoard
      = MoveSuggester.suggest_moves scnPush List.reverse cfg0 scnBoard
    ∧ MoveSuggester.evaluate_position (scnPush scnPos mvB)
        ≤ MoveSuggester.evaluate_position (scnPush scnPos mvA) := by
  have h := claim_C2 scnPush id List.reverse cfg0 scnBoard rfl
  refine ⟨h.1, ?_⟩
  have h2 := h.2 (mvB, 1/20, "Heuristic evaluation")
    (by with_unfolding_all decide) mvA (by with_unfolding_all decide)
  exact h2

theorem fbmStep_eq (push : Position → Move → Position) (move : Move) (e : ℚ)
    (acc : List (Move × ℚ)) (b : BoardState) (lm : Move) :
    BlunderDetector.fbmStep push move e (acc, b) lm
      = (acc ++ (if lm = move then []
          else if (if b.cur.turn then BlunderDetector.evaluate_position (push b.cur lm) > e
                   else BlunderDetector.evaluate_position (push b.cur lm) < e)
               then [(lm, BlunderDetector.evaluate_position (push b.cur lm))]
               else []), b) := by
  by_cases hmv : lm = move
  · simp [BlunderDetector.fbmStep, hmv]
  · cases ht : b.cur.turn
    · by_cases hc : BlunderDetector.evaluate_position (push b.cur lm) < e <;>
        simp [BlunderDetector.fbmStep, hmv, pushBoard, popBoard, ht, hc]
    · by_cases hc : BlunderDetector.evaluate_position (push b.cur lm) > e <;>
        simp [BlunderDetector.fbmStep, hmv, pushBoard, popBoard, ht, hc]

theorem fbmLoop_eq (push : Position → Move → Position) (move : Move) (e : ℚ) :
    ∀ (l : List Move) (acc : List (Move × ℚ)) (b : BoardState),
      l.foldl (BlunderDetector.fbmStep push move e) (acc, b)
        = (acc ++ l.filterMap (fun lm =>
            if lm = move then none
            else if (if b.cur.turn then BlunderDetector.evaluate_position (push b.cur lm) > e
                     else BlunderDetector.evaluate_position (push b.cur lm) < e)
                 then some (lm, BlunderDetector.evaluate_position (push b.cur lm))
                 else none), b) := by
  intro l
  induction l with
  | nil => intro acc b; simp
  | cons lm t ih =>
    intro acc b
    rw [List.foldl_cons, fbmStep_eq, ih]
    by_cases hmv : lm = move
    · simp [hmv]
    · by_cases hc : (if b.cur.turn then BlunderDetector.evaluate_position (push b.cur lm) > e
          else BlunderDetector.evaluate_position (push b.cur lm) < e)
      · simp [hmv, hc]
      · simp [hmv, hc]

theorem filterMap_cand_mem {move : Move} {turn : Bool} {e : ℚ} {g : Move → ℚ}
    {L : List Move} {q : Move × ℚ}
    (hq : q ∈ L.filterMap (fun lm =>
      if lm = move then none
      else if (if turn then g lm > e else g lm < e) then some (lm, g lm) else none)) :
    q.1 ≠ move ∧ q.1 ∈ L := by
  obtain ⟨lm, hlm, heq⟩ := List.mem_filterMap.mp hq
  by_cases hmv : lm = move
  · simp [hmv] at heq
  · rw [if_neg hmv] at heq
    by_cases hc : (if turn then g lm > e else g lm < e)
    · rw [if_pos hc] at heq
      simp only [Option.some.injEq] at heq
      subst heq
      exact ⟨hmv, hlm⟩
    · rw [if_neg hc] at heq
      simp at heq

/-- Claim C5: `find_better_moves` returns a list that never contains the
candidate move, contains only legal moves of the same position, is ordered
from the mover's perspective (descending evaluation when the side to move is
White, ascending when Black), and has length at most `max_moves`. -/
theorem claim_C5 (push : Position → Move → Position) (t : ℚ) (b : BoardState)
    (move : Move) (max_moves : ℕ) :
    (∀ q ∈ (BlunderDetector.find_better_moves push t b move max_moves).1,
        q.1 ≠ move ∧ q.1 ∈ b.cur.legalMoves)
    ∧ List.Sorted
        (if b.cur.turn then BlunderDetector.betterDesc else BlunderDetector.betterAsc)
        (BlunderDetector.find_better_moves push t b move max_moves).1
    ∧ (BlunderDetector.find_better_moves push t b move max_moves).1.length
        ≤ max_moves := by
  have hfbm : (BlunderDetector.find_better_moves push t b move max_moves).1
      = ((if b.cur.turn
          then List.insertionSort BlunderDetector.betterDesc
            (b.cur.legalMoves.filterMap (fun lm =>
              if lm = move then none
              else if (if b.cur.turn
                  then BlunderDetector.evaluate_position (push b.cur lm)
                    > BlunderDetector.evaluate_position (push b.cur move)
                  else BlunderDetector.evaluate_position (push b.cur lm)
                    < BlunderDetector.evaluate_position (push b.cur move))
                then some (lm, BlunderDetector.evaluate_position (push b.cur lm))
                else none))
          else List.insertionSort BlunderDetector.betterAsc
            (b.cur.legalMoves.filterMap (fun lm =>
              if lm = move then none
              else if (if b.cur.turn
                  then BlunderDetector.evaluate_position (push b.cur lm)
                    > BlunderDetector.evaluate_position (push b.cur move)
                  else BlunderDetector.evaluate_position (push b.cur lm)
                    < BlunderDetector.evaluate_position (push b.cur move))
                then some (lm, BlunderDetector.evaluate_position (push b.cur lm))
                else none))).take max_moves) := by
    simp only [BlunderDetector.find_better_moves]
    have hisb2 : (BlunderDetector.is_blunder push b move t).2 = b := rfl
    have hisbe : (BlunderDetector.is_blunder push b move t).1.2.2
        = BlunderDetector.evaluate_position (push b.cur move) := rfl
    rw [hisbe, hisb2]
    rw [fbmLoop_eq push move (BlunderDetector.evaluate_position
      (push b.cur move)) b.cur.legalMoves [] b]
    simp
  refine ⟨?_, ?_, ?_⟩
  · intro q hq
    rw [hfbm] at hq
    have hq2 := (List.take_sublist _ _).subset hq
    by_cases hturn : b.cur.turn = true
    · rw [if_pos hturn] at hq2
      exact filterMap_cand_mem ((List.perm_insertionSort _ _).mem_iff.mp hq2)
    · rw [if_neg hturn] at hq2
      exact filterMap_cand_mem ((List.perm_insertionSort _ _).mem_iff.mp hq2)
  · rw [hfbm]
    by_cases hturn : b.cur.turn = true
    · rw [if_pos hturn, if_pos hturn]
      exact List.Pairwise.sublist (List.take_sublist _ _)
        (List.sorted_insertionSort _ _)
    · rw [if_neg hturn, if_neg hturn]
      exact List.Pairwise.sublist (List.take_sublist _ _)
        (List.sorted_insertionSort _ _)
  · rw [hfbm]
    by_cases hturn : b.cur.turn = true
    · rw [if_pos hturn]
      simp [List.length_take]
    · rw [if_neg hturn]
      simp [List.length_take]

/-- Claim C5 witness: `claim_C5` at the concrete blunder scenario, where the
returned alternative list is `[(mvB, 9.1)]`. -/
theorem claim_C5_witness :
    ((mvB, (91 : ℚ)/10).1 ≠ mvA)
    ∧ (BlunderDetector.find_better_moves fbmPush 0 scnBoard mvA 3).1.length ≤ 3 :=
  ⟨((claim_C5 fbmPush 0 scnBoard mvA 3).1 (mvB, (91 : ℚ)/10)
      (by with_unfolding_all decide)).1,
    (claim_C5 fbmPush 0 scnBoard mvA 3).2.2⟩

theorem piece_count_mirror {P Q : Position}
    (hp : ∀ sq, Q.pieceAt sq = (P.pieceAt (square_mirror sq)).map flipPiece) :
    MoveSuggester.piece_count Q = MoveSuggester.piece_count P := by
  rw [piece_count_eq, piece_count_eq]
  have h1 : ∀ sq : Fin 64,
      (if (Q.pieceAt sq).isSome then (1 : ℕ) else 0)
        = (if (P.pieceAt (square_mirror sq)).isSome then (1 : ℕ) else 0) := by
    intro sq
    rw [hp sq]
    cases P.pieceAt (square_mirror sq) <;> rfl
  calc ∑ sq : Fin 64, (if (Q.pieceAt sq).isSome then (1 : ℕ) else 0)
      = ∑ sq : Fin 64, (if (P.pieceAt (square_mirror sq)).isSome then (1 : ℕ) else 0) :=
        Finset.sum_congr rfl (fun sq _ => h1 sq)
    _ = ∑ sq : Fin 64, (if (P.pieceAt sq).isSome then (1 : ℕ) else 0) := by
        have h2 := Equiv.sum_comp mirrorPerm
          (fun u : Fin 64 => if (P.pieceAt u).isSome then (1 : ℕ) else 0)
        simpa [mirrorPerm_apply] using h2

/-- Claim C7: the heuristic evaluator is antisymmetric under colour-mirroring:
for any position and its colour-mirrored counterpart (each piece on the
vertically mirrored square with its colour swapped, side to move flipped),
`evaluate_position` negates exactly.  Material and piece-square terms are
antisymmetric because Black pieces' squares are mirrored before the table
lookup, and the mobility term flips sign with the side to move. -/
theorem claim_C7 (P Q : Position) (h : IsMirror P Q) :
    MoveSuggester.evaluate_position Q = -(MoveSuggester.evaluate_position P) := by
  obtain ⟨hp, ht, hg, hc, hl⟩ := h
  have hend : MoveSuggester.is_endgame Q = MoveSuggester.is_endgame P := by
    simp [MoveSuggester.is_endgame, piece_count_mirror hp]
  simp only [MoveSuggester.evaluate_position, hg, hc, ht, hend, hl]
  cases hgo : P.is_game_over
  · simp only [Bool.false_eq_true, if_false]
    have hsum : boardSum (fun sq =>
        MoveSuggester.material_term (Q.pieceAt sq)
          + MoveSuggester.positional_term (MoveSuggester.is_endgame P)
              (Q.pieceAt sq) sq)
        = -(boardSum (fun sq =>
            MoveSuggester.material_term (P.pieceAt sq)
              + MoveSuggester.positional_term (MoveSuggester.is_endgame P)
                  (P.pieceAt sq) sq)) := by
      rw [boardSum_eq_sum, boardSum_eq_sum]
      have key : ∀ sq : Fin 64,
          MoveSuggester.material_term (Q.pieceAt (square_mirror sq))
            + MoveSuggester.positional_term (MoveSuggester.is_endgame P)
                (Q.pieceAt (square_mirror sq)) (square_mirror sq)
          = -(MoveSuggester.material_term (P.pieceAt sq)
              + MoveSuggester.positional_term (MoveSuggester.is_endgame P)
                  (P.pieceAt sq) sq) := by
        intro sq
        rw [hp (square_mirror sq), square_mirror_mirror sq]
        rw [material_term_flip, positional_term_flip]
        ring
      have hreindex := Equiv.sum_comp mirrorPerm
        (fun u : Fin 64 =>
          MoveSuggester.material_term (Q.pieceAt u)
            + MoveSuggester.positional_term (MoveSuggester.is_endgame P)
                (Q.pieceAt u) u)
      calc ∑ sq : Fin 64,
            (MoveSuggester.material_term (Q.pieceAt sq)
              + MoveSuggester.positional_term (MoveSuggester.is_endgame P)
                  (Q.pieceAt sq) sq)
          = ∑ sq : Fin 64,
            (MoveSuggester.material_term (Q.pieceAt (square_mirror sq))
              + MoveSuggester.positional_term (MoveSuggester.is_endgame P)
                  (Q.pieceAt (square_mirror sq)) (square_mirror sq)) := by
            rw [← (by simpa [mirrorPerm_apply] using hreindex :
              (∑ sq : Fin 64,
                (MoveSuggester.material_term (Q.pieceAt (square_mirror sq))
                  + MoveSuggester.positional_term (MoveSuggester.is_endgame P)
                      (Q.pieceAt (square_mirror sq)) (square_mirror sq)))
              = ∑ sq : Fin 64,
                (MoveSuggester.material_term (Q.pieceAt sq)
                  + MoveSuggester.positional_term (MoveSuggester.is_endgame P)
                      (Q.pieceAt sq) sq))]
        _ = ∑ sq : Fin 64,
            -(MoveSuggester.material_term (P.pieceAt sq)
              + MoveSuggester.positional_term (MoveSuggester.is_endgame P)
                  (P.pieceAt sq) sq) :=
            Finset.sum_congr rfl (fun sq _ => key sq)
        _ = -(∑ sq : Fin 64,
            (MoveSuggester.material_term (P.pieceAt sq)
              + MoveSuggester.positional_term (MoveSuggester.is_endgame P)
                  (P.pieceAt sq) sq)) := Finset.sum_neg_distrib
    rw [hsum]
    cases hturn : P.turn <;> simp <;> ring
  · simp only [if_true]
    cases hcm : P.is_checkmate
    · simp
    · simp only [if_true]
      cases hturn : P.turn <;> simp

/-- Claim C7 witness: `claim_C7` applied to the starting position and its
colour-mirror (the same symmetric placement with Black to move and the 20
mirrored replies). -/
theorem claim_C7_witness :
    IsMirror startPos startPosBlack
    ∧ MoveSuggester.evaluate_position startPosBlack
        = -(MoveSuggester.evaluate_position startPos) := by
  have hm : IsMirror startPos startPosBlack := by
    refine ⟨?_, rfl, rfl, rfl, ?_⟩
    · with_unfolding_all decide
    · decide
  exact ⟨hm, claim_C7 startPos startPosBlack hm⟩
